import Mathlib

/-!
Verification development for the BEAGLE likelihood-evaluation API
(libhmsbeagle/beagle.h).  The repository ships the public C header only;
the enumerations and declarations below are embedded directly from
beagle.h, while the behaviour of the entry points (buffer pools, kernels,
validation) is modelled from the specification document that accompanies
the header.  Scalars are modelled exactly, over the rationals.
-/

/-- Return codes of `enum BeagleReturnCodes` in beagle.h (lines 39-48). -/
inductive ReturnCode where
  | noError
  | generalError
  | outOfMemoryError
  | unidentifiedExceptionError
  | uninitializedInstanceError
  | outOfRangeError
deriving DecidableEq

/-- The integer value each `BeagleReturnCodes` member carries in beagle.h. -/
def ReturnCode.toInt : ReturnCode → Int
  | .noError => 0
  | .generalError => -1
  | .outOfMemoryError => -2
  | .unidentifiedExceptionError => -3
  | .uninitializedInstanceError => -4
  | .outOfRangeError => -5

/-- DOUBLE capability flag, `1 << 0` in beagle.h. -/
def flagDOUBLE : Nat := 1 <<< 0

/-- SINGLE capability flag, `1 << 1` in beagle.h. -/
def flagSINGLE : Nat := 1 <<< 1

/-- ASYNCH capability flag, `1 << 2` in beagle.h. -/
def flagASYNCH : Nat := 1 <<< 2

/-- SYNCH capability flag, `1 << 3` in beagle.h. -/
def flagSYNCH : Nat := 1 <<< 3

/-- CPU capability flag, `1 << 16` in beagle.h. -/
def flagCPU : Nat := 1 <<< 16

/-- GPU capability flag, `1 << 17` in beagle.h. -/
def flagGPU : Nat := 1 <<< 17

/-- FPGA capability flag, `1 << 18` in beagle.h. -/
def flagFPGA : Nat := 1 <<< 18

/-- SSE capability flag, `1 << 19` in beagle.h. -/
def flagSSE : Nat := 1 <<< 19

/-- CELL capability flag, `1 << 20` in beagle.h. -/
def flagCELL : Nat := 1 <<< 20

/-- The members of `enum BeagleFlags`, in declaration order. -/
def beagleFlags : List Nat :=
  [flagDOUBLE, flagSINGLE, flagASYNCH, flagSYNCH,
   flagCPU, flagGPU, flagFPGA, flagSSE, flagCELL]

/-- One formal parameter of a C entry point in beagle.h: its name, whether
its type is a pointer, whether the pointee is const-qualified, and whether
the header's doc comment marks it as an input. -/
structure CParam where
  pname : String
  isPointer : Bool
  isConst : Bool
  isInput : Bool
deriving DecidableEq

/-- One C entry point of beagle.h: its name and its parameter list. -/
structure CFun where
  fname : String
  params : List CParam
deriving DecidableEq

/-- Shorthand for a non-pointer (scalar) parameter, always an input. -/
def scalarParam (n : String) : CParam := ⟨n, false, false, true⟩

/-- Shorthand for a const-qualified pointer parameter marked input. -/
def constInParam (n : String) : CParam := ⟨n, true, true, true⟩

/-- Shorthand for a non-const pointer parameter marked output. -/
def outputParam (n : String) : CParam := ⟨n, true, false, false⟩

/-- The entry points declared in beagle.h, transcribed parameter by
parameter: pointer-ness and const-ness from the C types, input/output
from the doc comments attached to each declaration. -/
def beagleHeaderFuns : List CFun :=
  [⟨"getResourceList", []⟩,
   ⟨"createInstance",
     [scalarParam "tipCount", scalarParam "partialsBufferCount",
      scalarParam "compactBufferCount", scalarParam "stateCount",
      scalarParam "patternCount", scalarParam "eigenBufferCount",
      scalarParam "matrixBufferCount", scalarParam "categoryCount",
      ⟨"resourceList", true, false, true⟩,
      scalarParam "resourceCount", scalarParam "preferenceFlags",
      scalarParam "requirementFlags"]⟩,
   ⟨"initializeInstance",
     [scalarParam "instance", outputParam "returnInfo"]⟩,
   ⟨"finalize", [scalarParam "instance"]⟩,
   ⟨"setPartials",
     [scalarParam "instance", scalarParam "bufferIndex",
      constInParam "inPartials"]⟩,
   ⟨"getPartials",
     [scalarParam "instance", scalarParam "bufferIndex",
      outputParam "outPartials"]⟩,
   ⟨"setTipStates",
     [scalarParam "instance", scalarParam "tipIndex",
      constInParam "inStates"]⟩,
   ⟨"setEigenDecomposition",
     [scalarParam "instance", scalarParam "eigenIndex",
      constInParam "inEigenVectors", constInParam "inInverseEigenVectors",
      constInParam "inEigenValues"]⟩,
   ⟨"setCategoryRates",
     [scalarParam "instance", constInParam "inCategoryRates"]⟩,
   ⟨"updateTransitionMatrices",
     [scalarParam "instance", scalarParam "eigenIndex",
      constInParam "probabilityIndices", constInParam "firstDerivativeIndices",
      constInParam "secondDervativeIndices", constInParam "edgeLengths",
      scalarParam "count"]⟩,
   ⟨"setTransitionMatrix",
     [scalarParam "instance", scalarParam "matrixIndex",
      constInParam "inMatrix"]⟩,
   ⟨"updatePartials",
     [constInParam "instance", scalarParam "instanceCount",
      constInParam "operations", scalarParam "operationCount",
      scalarParam "rescale"]⟩,
   ⟨"waitForPartials",
     [constInParam "instance", scalarParam "instanceCount",
      constInParam "destinationPartials", scalarParam "destinationPartialsCount"]⟩,
   ⟨"calculateRootLogLikelihoods",
     [scalarParam "instance", constInParam "bufferIndices",
      constInParam "inWeights", constInParam "inStateFrequencies",
      constInParam "scalingFactorsIndices",
      ⟨"scalingFactorsCount", true, false, true⟩,
      scalarParam "count", outputParam "outLogLikelihoods"]⟩,
   ⟨"calculateEdgeLogLikelihoods",
     [scalarParam "instance", constInParam "parentBufferIndices",
      constInParam "childBufferIndices", constInParam "probabilityIndices",
      constInParam "firstDerivativeIndices", constInParam "secondDerivativeIndices",
      constInParam "inWeights", constInParam "inStateFrequencies",
      constInParam "scalingFactorsIndices",
      ⟨"scalingFactorsCount", true, false, true⟩,
      scalarParam "count", outputParam "outLogLikelihoods",
      outputParam "outFirstDerivatives", outputParam "outSecondDerivatives"]⟩]

/-- Whether a parameter of a function is the `scalingFactorsCount` argument
of one of the two likelihood-integration entry points. -/
def isScalingCountParam (f : CFun) (p : CParam) : Prop :=
  p.pname = "scalingFactorsCount" ∧
    (f.fname = "calculateRootLogLikelihoods" ∨
     f.fname = "calculateEdgeLogLikelihoods")

instance (f : CFun) (p : CParam) : Decidable (isScalingCountParam f p) := by
  unfold isScalingCountParam; infer_instance

/-- Claim C10 exactly as stated: every input pointer parameter across all
entry points is const-qualified, the only exception being
`scalingFactorsCount` in the two likelihood-integration calls. -/
def c10AsStated : Prop :=
  ∀ f ∈ beagleHeaderFuns, ∀ p ∈ f.params,
    p.isPointer = true → p.isInput = true → ¬ isScalingCountParam f p →
      p.isConst = true

instance : Decidable c10AsStated := by
  unfold c10AsStated; infer_instance

/-- Claim C10 as amended: every input pointer parameter is const-qualified
except `scalingFactorsCount` in the two likelihood-integration calls and
`resourceList` in `createInstance`. -/
def c10Amended : Prop :=
  ∀ f ∈ beagleHeaderFuns, ∀ p ∈ f.params,
    p.isPointer = true → p.isInput = true → ¬ isScalingCountParam f p →
      (f.fname = "createInstance" ∧ p.pname = "resourceList") ∨
        p.isConst = true

instance : Decidable c10Amended := by
  unfold c10Amended; infer_instance

/-- C10 counterexample: the claim as stated is false on beagle.h, because
`createInstance` takes `int* resourceList`, a non-const pointer documented
as an input, which is not the `scalingFactorsCount` exception. -/
theorem c10_counterexample : ¬ c10AsStated := by decide

/-- C10 (amended): in beagle.h every input pointer parameter is
const-qualified, except the non-const `int* scalingFactorsCount` of
`calculateRootLogLikelihoods` and `calculateEdgeLogLikelihoods` and the
non-const `int* resourceList` of `createInstance`. -/
theorem c10_const_inputs_amended : c10Amended := by decide

/-- C9: the BeagleFlags capability values are pairwise distinct, each is a
single bit (a power of two), and any two distinct flags have bitwise-AND
zero, so combinations of capabilities never alias the same bit. -/
theorem beagleFlags_distinct_single_bits :
    beagleFlags.Nodup ∧
    List.Forall (fun f => ∃ k : Nat, f = 2 ^ k) beagleFlags ∧
    beagleFlags.Pairwise (fun f g => f &&& g = 0 ∧ g &&& f = 0) := by
  refine ⟨by decide, ?_, by decide⟩
  simp only [List.Forall, beagleFlags]
  exact ⟨⟨0, by decide⟩, ⟨1, by decide⟩,
    ⟨2, by decide⟩, ⟨3, by decide⟩,
    ⟨16, by decide⟩, ⟨17, by decide⟩,
    ⟨18, by decide⟩, ⟨19, by decide⟩,
    ⟨20, by decide⟩⟩

/-- Modelled from the spec: the eight sizing constants fixed at instance
creation (spec 3, "immutable for its lifetime"); the implementation behind
beagle.h is not in the repository. -/
structure Sizing where
  tipCount : Nat
  partialsBufferCount : Nat
  compactBufferCount : Nat
  stateCount : Nat
  patternCount : Nat
  eigenBufferCount : Nat
  matrixBufferCount : Nat
  categoryCount : Nat
deriving DecidableEq

/-- Modelled from the spec: the buffer pools of one instance (spec 3).
Partials are indexed buffer, category, pattern, state; compact tip states
buffer, pattern; eigen buffers hold the triple (U, Uinv, lambda); transition
matrices are indexed buffer, category, row, column; scaling-factor buffers
hold per-pattern accumulated log scalers.  The implementation behind
beagle.h is not in the repository. -/
structure InstState where
  sizing : Sizing
  isInit : Bool
  partials : Nat → Nat → Nat → Nat → ℚ
  tipStates : Nat → Nat → Nat
  eigenU : Nat → Nat → Nat → ℚ
  eigenInv : Nat → Nat → Nat → ℚ
  eigenVal : Nat → Nat → ℚ
  matrices : Nat → Nat → Nat → Nat → ℚ
  rates : Nat → ℚ
  scalers : Nat → Nat → ℚ

/-- Modelled from the spec: the library's instance table (spec 4.2).  A
handle maps to its instance when created and not yet finalized; fresh
handles are drawn from a counter. -/
structure World where
  instances : Nat → Option InstState
  nextHandle : Nat

/-- An instance usable by kernel and buffer calls: created and initialized
(spec 4.2: "An instance not yet initialized fails all kernel calls with the
uninitialized-instance error"). -/
def activeInstance (w : World) (handle : Nat) : Option InstState :=
  match w.instances handle with
  | none => none
  | some st => if st.isInit then some st else none

/-- Store a new instance state at a handle of the world. -/
def putInstance (w : World) (handle : Nat) (st : InstState) : World :=
  ⟨fun h => if h = handle then some st else w.instances h, w.nextHandle⟩

/-- Number of set bits of a capability bitmask (the flags of beagle.h fit
well inside 32 bits). -/
def popBits (n : Nat) : Nat :=
  (List.range 32).countP (fun b => n.testBit b)

/-- Modelled from the spec: the resource candidates of instance creation
(spec 4.2): registry entries in order, rejecting any not in the allowed
list (when one is given) and any missing any requirement flag.  The
registry is the list of capability bitmasks of the available resources. -/
def createCandidates (registry : List Nat) (allowed : Option (List Nat))
    (requirementFlags : Nat) : List Nat :=
  (List.range registry.length).filter (fun i =>
    (match allowed with
     | none => true
     | some l => l.contains i) &&
    (registry.getD i 0 &&& requirementFlags == requirementFlags))

/-- Modelled from the spec: createInstance (spec 4.2, 4.9; header "<0 if
failed").  A backend is selected among the candidate resources, preferring
the one matching the most preference flags; when no candidate satisfies
the requirements the call fails with the general error and produces no
handle; when buffer allocation fails (the environment oracle allocOk) the
call fails with the out-of-memory error and leaves no partial state; on
success the zero-initialized buffer pool is allocated and a fresh
non-negative handle is returned, the instance still awaiting
initializeInstance. -/
def createInstance (w : World) (sz : Sizing) (registry : List Nat)
    (allowed : Option (List Nat)) (preferenceFlags requirementFlags : Nat)
    (allocOk : Bool) : Int × World :=
  match (createCandidates registry allowed requirementFlags).argmax
      (fun i => popBits (registry.getD i 0 &&& preferenceFlags)) with
  | none => (ReturnCode.generalError.toInt, w)
  | some _ =>
    if allocOk then
      (Int.ofNat w.nextHandle,
       ⟨fun h => if h = w.nextHandle then
           some ⟨sz, false, fun _ _ _ _ => 0, fun _ _ => 0, fun _ _ _ => 0,
                 fun _ _ _ => 0, fun _ _ => 0, fun _ _ _ _ => 0, fun _ => 0,
                 fun _ _ => 0⟩
         else w.instances h,
        w.nextHandle + 1⟩)
    else (ReturnCode.outOfMemoryError.toInt, w)

/-- Modelled from the spec: initializeInstance (spec 4.2) marks a created
instance usable; on an unknown handle it fails. -/
def initializeInstance (w : World) (handle : Nat) : ReturnCode × World :=
  match w.instances handle with
  | none => (.uninitializedInstanceError, w)
  | some st => (.noError, putInstance w handle ⟨st.sizing, true, st.partials,
      st.tipStates, st.eigenU, st.eigenInv, st.eigenVal, st.matrices,
      st.rates, st.scalers⟩)

/-- Modelled from the spec: finalize (spec 4.2) releases the instance;
subsequent use of the handle fails with uninitialized-instance. -/
def finalizeInstance (w : World) (handle : Nat) : ReturnCode × World :=
  match w.instances handle with
  | none => (.uninitializedInstanceError, w)
  | some _ => (.noError, ⟨fun h => if h = handle then none else w.instances h,
      w.nextHandle⟩)

/-- Modelled from the spec: setPartials (spec 4.3) validates the handle and
the buffer index at entry, then copies the caller's array into the
addressed partials buffer. -/
def setPartials (w : World) (handle bufferIndex : Nat)
    (inPartials : Nat → Nat → Nat → ℚ) : ReturnCode × World :=
  match activeInstance w handle with
  | none => (.uninitializedInstanceError, w)
  | some st =>
    if bufferIndex < st.sizing.partialsBufferCount then
      (.noError, putInstance w handle ⟨st.sizing, st.isInit,
        fun b => if b = bufferIndex then inPartials else st.partials b,
        st.tipStates, st.eigenU, st.eigenInv, st.eigenVal, st.matrices,
        st.rates, st.scalers⟩)
    else (.outOfRangeError, w)

/-- Modelled from the spec: getPartials (spec 4.3) validates the handle and
the buffer index, then copies the addressed partials buffer out; the third
component is the output array. -/
def getPartials (w : World) (handle bufferIndex : Nat) :
    ReturnCode × World × (Nat → Nat → Nat → ℚ) :=
  match activeInstance w handle with
  | none => (.uninitializedInstanceError, w, fun _ _ _ => 0)
  | some st =>
    if bufferIndex < st.sizing.partialsBufferCount then
      (.noError, w, st.partials bufferIndex)
    else (.outOfRangeError, w, fun _ _ _ => 0)

/-- Modelled from the spec: setTipStates (spec 4.3) validates the handle
and the compact-buffer index, then copies the caller's state codes in. -/
def setTipStates (w : World) (handle tipIndex : Nat)
    (inStates : Nat → Nat) : ReturnCode × World :=
  match activeInstance w handle with
  | none => (.uninitializedInstanceError, w)
  | some st =>
    if tipIndex < st.sizing.compactBufferCount then
      (.noError, putInstance w handle ⟨st.sizing, st.isInit, st.partials,
        fun b => if b = tipIndex then inStates else st.tipStates b,
        st.eigenU, st.eigenInv, st.eigenVal, st.matrices, st.rates,
        st.scalers⟩)
    else (.outOfRangeError, w)

/-- Modelled from the spec: setEigenDecomposition (spec 4.3) validates the
handle and the eigen-buffer index, then copies the triple (U, Uinv, lambda)
into the addressed eigen buffer. -/
def setEigenDecomposition (w : World) (handle eigenIndex : Nat)
    (inU inInv : Nat → Nat → ℚ) (inVal : Nat → ℚ) : ReturnCode × World :=
  match activeInstance w handle with
  | none => (.uninitializedInstanceError, w)
  | some st =>
    if eigenIndex < st.sizing.eigenBufferCount then
      (.noError, putInstance w handle ⟨st.sizing, st.isInit, st.partials,
        st.tipStates,
        fun b => if b = eigenIndex then inU else st.eigenU b,
        fun b => if b = eigenIndex then inInv else st.eigenInv b,
        fun b => if b = eigenIndex then inVal else st.eigenVal b,
        st.matrices, st.rates, st.scalers⟩)
    else (.outOfRangeError, w)

/-- Modelled from the spec: setCategoryRates (spec 4.3) copies the caller's
category-rate vector into the instance-level rate vector. -/
def setCategoryRates (w : World) (handle : Nat) (inRates : Nat → ℚ) :
    ReturnCode × World :=
  match activeInstance w handle with
  | none => (.uninitializedInstanceError, w)
  | some st =>
    (.noError, putInstance w handle ⟨st.sizing, st.isInit, st.partials,
      st.tipStates, st.eigenU, st.eigenInv, st.eigenVal, st.matrices,
      inRates, st.scalers⟩)

/-- Modelled from the spec: setTransitionMatrix (spec 4.3) validates the
handle and the matrix-buffer index, then copies the caller's matrix in,
bypassing the eigen path. -/
def setTransitionMatrix (w : World) (handle matrixIndex : Nat)
    (inMatrix : Nat → Nat → Nat → ℚ) : ReturnCode × World :=
  match activeInstance w handle with
  | none => (.uninitializedInstanceError, w)
  | some st =>
    if matrixIndex < st.sizing.matrixBufferCount then
      (.noError, putInstance w handle ⟨st.sizing, st.isInit, st.partials,
        st.tipStates, st.eigenU, st.eigenInv, st.eigenVal,
        fun b => if b = matrixIndex then inMatrix else st.matrices b,
        st.rates, st.scalers⟩)
    else (.outOfRangeError, w)

/-- Modelled from the spec: waitForPartials (spec 4.6) blocks until the
listed destination buffers are stable; on the synchronous model it is a
no-op that still validates its handle. -/
def waitForPartials (w : World) (handle : Nat) (destList : List Nat) :
    ReturnCode × World :=
  match activeInstance w handle with
  | none => (.uninitializedInstanceError, w)
  | some st =>
    if destList.all (fun d => d < st.sizing.partialsBufferCount) then
      (.noError, w)
    else (.outOfRangeError, w)

/-- Entry (s, s2) of the matrix product U * diag(d) * Uinv over the first
S states (spec 4.4 writes the transition matrix and its derivatives in
this factored form). -/
def matMulDiag (S : Nat) (U : Nat → Nat → ℚ) (d : Nat → ℚ)
    (Uinv : Nat → Nat → ℚ) (s s2 : Nat) : ℚ :=
  ∑ j ∈ Finset.range S, U s j * d j * Uinv j s2

/-- Modelled from the spec: the category-c transition matrix of spec 4.4,
M[c] = U * diag(expf (lambda * t * r_c)) * Uinv, as a function of category,
row and column; expf stands for the backend's exponential. -/
def probMatrix (S : Nat) (expf : ℚ → ℚ) (U Uinv : Nat → Nat → ℚ)
    (lam : Nat → ℚ) (rates : Nat → ℚ) (t : ℚ) : Nat → Nat → Nat → ℚ :=
  fun c s s2 =>
    matMulDiag S U (fun j => expf (lam j * t * rates c)) Uinv s s2

/-- Modelled from the spec: the order-n derivative in t of the transition
matrix of spec 4.4, U * diag((lambda * r_c)^n * expf (lambda * t * r_c)) *
Uinv; order 1 and 2 are the first and second derivative matrices. -/
def derivMatrix (S : Nat) (expf : ℚ → ℚ) (U Uinv : Nat → Nat → ℚ)
    (lam : Nat → ℚ) (rates : Nat → ℚ) (order : Nat) (t : ℚ) :
    Nat → Nat → Nat → ℚ :=
  fun c s s2 =>
    matMulDiag S U
      (fun j => (lam j * rates c) ^ order * expf (lam j * t * rates c))
      Uinv s s2

/-- Overwrite one matrix buffer of a matrix pool (buffer, category, row,
column). -/
def writeMatrix (pool : Nat → Nat → Nat → Nat → ℚ) (idx : Nat)
    (m : Nat → Nat → Nat → ℚ) : Nat → Nat → Nat → Nat → ℚ :=
  fun b => if b = idx then m else pool b

/-- Modelled from the spec: one iteration i of updateTransitionMatrices
(spec 4.4): store the transition matrices for edge length edgeLengths i
into buffer probIdx i, and, when a derivative index list is present, the
first (resp. second) derivative matrices into its i-th entry. -/
def updateTMStep (S : Nat) (expf : ℚ → ℚ) (U Uinv : Nat → Nat → ℚ)
    (lam : Nat → ℚ) (rates : Nat → ℚ) (probIdx : Nat → Nat)
    (d1Idx d2Idx : Option (Nat → Nat)) (edgeLengths : Nat → ℚ)
    (pool : Nat → Nat → Nat → Nat → ℚ) (i : Nat) :
    Nat → Nat → Nat → Nat → ℚ :=
  let p1 := writeMatrix pool (probIdx i)
    (probMatrix S expf U Uinv lam rates (edgeLengths i))
  let p2 := match d1Idx with
    | none => p1
    | some f => writeMatrix p1 (f i)
        (derivMatrix S expf U Uinv lam rates 1 (edgeLengths i))
  match d2Idx with
  | none => p2
  | some f => writeMatrix p2 (f i)
      (derivMatrix S expf U Uinv lam rates 2 (edgeLengths i))

/-- Modelled from the spec: the updateTransitionMatrices kernel (spec 4.4)
on a matrix pool: for each i in [0, k), in order, write the transition
matrices (and requested derivatives) for edge length edgeLengths i. -/
def runUpdateTM (S : Nat) (expf : ℚ → ℚ) (U Uinv : Nat → Nat → ℚ)
    (lam : Nat → ℚ) (rates : Nat → ℚ) (probIdx : Nat → Nat)
    (d1Idx d2Idx : Option (Nat → Nat)) (edgeLengths : Nat → ℚ) (k : Nat)
    (pool : Nat → Nat → Nat → Nat → ℚ) : Nat → Nat → Nat → Nat → ℚ :=
  (List.range k).foldl
    (updateTMStep S expf U Uinv lam rates probIdx d1Idx d2Idx edgeLengths)
    pool

/-- Modelled from the spec: the contribution of one child to the peeling
product (spec 4.5).  A child index below tipCount addresses a compact
state buffer: a non-missing state code gives the single matrix entry
M[c, s, states p], the missing sentinel (state code S or larger) gives the
row sum; a child index at or above tipCount addresses a partials buffer
and gives the matrix-vector product over the child's partials. -/
def childContrib (S tipCount : Nat) (parts : Nat → Nat → Nat → Nat → ℚ)
    (tips : Nat → Nat → Nat) (mats : Nat → Nat → Nat → Nat → ℚ)
    (child childM c p s : Nat) : ℚ :=
  if child < tipCount then
    if tips child p < S then mats childM c s (tips child p)
    else ∑ j ∈ Finset.range S, mats childM c s j
  else ∑ j ∈ Finset.range S, mats childM c s j * parts child c p j

/-- One 6-tuple of the updatePartials operation list (beagle.h lines
314-320), with the header's field names. -/
structure PartialOp where
  destinationPartials : Nat
  destinationScalingFactors : Nat
  child1Partials : Nat
  child1TransitionMatrix : Nat
  child2Partials : Nat
  child2TransitionMatrix : Nat
deriving DecidableEq

/-- The partials pool and the scaling-factor pool an updatePartials run
works on. -/
structure PeelState where
  partials : Nat → Nat → Nat → Nat → ℚ
  scalers : Nat → Nat → ℚ

/-- Modelled from the spec: the raw destination values one operation
computes (spec 4.5): the product of the two children's contributions, per
category, pattern and state. -/
def opRaw (S tipCount : Nat) (tips : Nat → Nat → Nat)
    (mats : Nat → Nat → Nat → Nat → ℚ) (st : PeelState) (op : PartialOp) :
    Nat → Nat → Nat → ℚ :=
  fun c p s =>
    childContrib S tipCount st.partials tips mats
        op.child1Partials op.child1TransitionMatrix c p s *
      childContrib S tipCount st.partials tips mats
        op.child2Partials op.child2TransitionMatrix c p s

/-- Modelled from the spec: execute one operation 6-tuple (spec 4.5).
With rescale off, the raw values are stored into the destination partials
buffer and the scaling pool is untouched.  With rescale on, each pattern's
values are divided by the scaler chosen for that pattern by sc (the
maximum, or another monotone scaler, of the pattern's computed values) and
logf of the scaler is accumulated into the pattern's entry of the scaling
buffer destinationScalingFactors. -/
def applyOp (S tipCount : Nat) (tips : Nat → Nat → Nat)
    (mats : Nat → Nat → Nat → Nat → ℚ) (rescale : Bool)
    (sc : (Nat → Nat → ℚ) → ℚ) (logf : ℚ → ℚ) (st : PeelState)
    (op : PartialOp) : PeelState :=
  let raw := opRaw S tipCount tips mats st op
  if rescale then
    { partials := fun b =>
        if b = op.destinationPartials then
          fun c p s => raw c p s / sc (fun c2 s2 => raw c2 p s2)
        else st.partials b,
      scalers := fun b =>
        if b = op.destinationScalingFactors then
          fun p => st.scalers b p + logf (sc (fun c2 s2 => raw c2 p s2))
        else st.scalers b }
  else
    { partials := fun b =>
        if b = op.destinationPartials then raw else st.partials b,
      scalers := st.scalers }

/-- Modelled from the spec: the updatePartials kernel (spec 4.5) executes
its operation list in order. -/
def runOps (S tipCount : Nat) (tips : Nat → Nat → Nat)
    (mats : Nat → Nat → Nat → Nat → ℚ) (rescale : Bool)
    (sc : (Nat → Nat → ℚ) → ℚ) (logf : ℚ → ℚ) (st : PeelState)
    (ops : List PartialOp) : PeelState :=
  ops.foldl (applyOp S tipCount tips mats rescale sc logf) st

/-- Modelled from the spec: a peeling tree (spec 4.5, glossary "Peeling").
A leaf carries tip partials (category, pattern, state); an internal node
carries its two subtrees and the transition matrices (category, row,
column) of the edges to them. -/
inductive PeelTree where
  | leaf (vals : Nat → Nat → Nat → ℚ)
  | node (left : PeelTree) (leftM : Nat → Nat → Nat → ℚ)
         (right : PeelTree) (rightM : Nat → Nat → Nat → ℚ)

/-- The Felsenstein product at an internal node (spec 4.5): entry (c,p,s)
is the product over the two children of the sums over states j of the
child's matrix entry times the child's value. -/
def nodeCombine (S : Nat) (lM rM : Nat → Nat → Nat → ℚ)
    (lv rv : Nat → Nat → Nat → ℚ) : Nat → Nat → Nat → ℚ :=
  fun c p s =>
    (∑ j ∈ Finset.range S, lM c s j * lv c p j) *
      (∑ j ∈ Finset.range S, rM c s j * rv c p j)

/-- Modelled from the spec: peeling with rescale == 0 (spec 4.5): the
recursion stores the raw Felsenstein products, no scaling is applied. -/
def peelNoScale (S : Nat) : PeelTree → Nat → Nat → Nat → ℚ
  | .leaf v => v
  | .node l lM r rM =>
      nodeCombine S lM rM (peelNoScale S l) (peelNoScale S r)

/-- Modelled from the spec: peeling with rescale == 1 (spec 4.5): at each
internal node the computed values of each pattern are divided by the
scaler sc chooses from that pattern's values, and logf of the scaler is
accumulated per pattern.  Returns the root values and the accumulated
per-pattern scaling-factor sums. -/
def peelScaled (S : Nat) (sc : (Nat → Nat → ℚ) → ℚ) (logf : ℚ → ℚ) :
    PeelTree → (Nat → Nat → Nat → ℚ) × (Nat → ℚ)
  | .leaf v => (v, fun _ => 0)
  | .node l lM r rM =>
      let pl := peelScaled S sc logf l
      let pr := peelScaled S sc logf r
      let raw := nodeCombine S lM rM pl.1 pr.1
      (fun c p s => raw c p s / sc (fun c2 s2 => raw c2 p s2),
       fun p => pl.2 p + pr.2 p + logf (sc (fun c2 s2 => raw c2 p s2)))

/-- Modelled from the spec: the site likelihood of root integration
(spec 4.7) for one root buffer: L_p = sum over states s of freqs s times
the sum over categories c of weights c times the root values at (c,p,s). -/
def rootSiteLikelihood (S C : Nat) (freqs weights : Nat → ℚ)
    (vals : Nat → Nat → Nat → ℚ) (p : Nat) : ℚ :=
  ∑ s ∈ Finset.range S, freqs s *
    ∑ c ∈ Finset.range C, weights c * vals c p s

/-- Whether every index of one operation 6-tuple is in range for the
sizing constants (spec 3: "Every index passed in an operation list refers
to an extant buffer of the required kind"; spec 4.5: destScaling above
tipCount). -/
def opInRange (sz : Sizing) (op : PartialOp) : Bool :=
  op.destinationPartials < sz.partialsBufferCount &&
  op.destinationScalingFactors < sz.partialsBufferCount &&
  sz.tipCount < op.destinationScalingFactors &&
  (if op.child1Partials < sz.tipCount then
     op.child1Partials < sz.compactBufferCount
   else op.child1Partials < sz.partialsBufferCount) &&
  (if op.child2Partials < sz.tipCount then
     op.child2Partials < sz.compactBufferCount
   else op.child2Partials < sz.partialsBufferCount) &&
  op.child1TransitionMatrix < sz.matrixBufferCount &&
  op.child2TransitionMatrix < sz.matrixBufferCount

/-- Modelled from the spec: the updatePartials entry point (spec 4.5) on
one instance: validate the handle and every index of the operation list at
entry, then run the operations over the instance's pools; sc and logf
stand for the backend's scaler choice and logarithm. -/
def updatePartialsCall (w : World) (handle : Nat) (ops : List PartialOp)
    (rescale : Bool) (sc : (Nat → Nat → ℚ) → ℚ) (logf : ℚ → ℚ) :
    ReturnCode × World :=
  match activeInstance w handle with
  | none => (.uninitializedInstanceError, w)
  | some st =>
    if ops.all (opInRange st.sizing) then
      let res := runOps st.sizing.stateCount st.sizing.tipCount
        st.tipStates st.matrices rescale sc logf
        ⟨st.partials, st.scalers⟩ ops
      (.noError, putInstance w handle ⟨st.sizing, st.isInit, res.partials,
        st.tipStates, st.eigenU, st.eigenInv, st.eigenVal, st.matrices,
        st.rates, res.scalers⟩)
    else (.outOfRangeError, w)

/-- Modelled from the spec: the updateTransitionMatrices entry point
(spec 4.4) on one instance: validate the handle, the eigen index and every
listed matrix index at entry, then run the kernel over the instance's
matrix pool with the eigen triple of the addressed eigen buffer; expf
stands for the backend's exponential. -/
def updateTransitionMatricesCall (w : World) (handle eigenIndex : Nat)
    (probIdx : Nat → Nat) (d1Idx d2Idx : Option (Nat → Nat))
    (edgeLengths : Nat → ℚ) (k : Nat) (expf : ℚ → ℚ) :
    ReturnCode × World :=
  match activeInstance w handle with
  | none => (.uninitializedInstanceError, w)
  | some st =>
    if eigenIndex < st.sizing.eigenBufferCount &&
        (List.range k).all (fun i =>
          probIdx i < st.sizing.matrixBufferCount &&
          (match d1Idx with
           | none => true
           | some f => f i < st.sizing.matrixBufferCount) &&
          (match d2Idx with
           | none => true
           | some f => f i < st.sizing.matrixBufferCount)) then
      (.noError, putInstance w handle ⟨st.sizing, st.isInit, st.partials,
        st.tipStates, st.eigenU, st.eigenInv, st.eigenVal,
        runUpdateTM st.sizing.stateCount expf (st.eigenU eigenIndex)
          (st.eigenInv eigenIndex) (st.eigenVal eigenIndex) st.rates
          probIdx d1Idx d2Idx edgeLengths k st.matrices,
        st.rates, st.scalers⟩)
    else (.outOfRangeError, w)

/-- Modelled from the spec: the calculateRootLogLikelihoods entry point
(spec 4.7) for one root buffer: validate the handle, the root index and
the scaling indices at entry, then integrate the root partials and add the
accumulated scaling factors; logf stands for the backend's logarithm.  The
third component is the output array of site log-likelihoods. -/
def calculateRootLogLikelihoodsCall (w : World) (handle rootIndex : Nat)
    (freqs weights : Nat → ℚ) (scalingIdx : List Nat) (logf : ℚ → ℚ) :
    ReturnCode × World × (Nat → ℚ) :=
  match activeInstance w handle with
  | none => (.uninitializedInstanceError, w, fun _ => 0)
  | some st =>
    if rootIndex < st.sizing.partialsBufferCount &&
        scalingIdx.all (fun i => i < st.sizing.partialsBufferCount) then
      (.noError, w, fun p =>
        logf (rootSiteLikelihood st.sizing.stateCount
          st.sizing.categoryCount freqs weights (st.partials rootIndex) p) +
        (scalingIdx.map (fun i => st.scalers i p)).sum)
    else (.outOfRangeError, w, fun _ => 0)

/-- Modelled from the spec: the site likelihood of edge integration
(spec 4.8): L_p = sum over states s of freqs s times the sum over
categories c of weights c times the parent partials at (c,p,s) times the
sum over states j of the edge matrix entry M[c,s,j] times the child
partials at (c,p,j). -/
def edgeSiteLikelihood (S C : Nat) (freqs weights : Nat → ℚ)
    (parent child : Nat → Nat → Nat → ℚ) (m : Nat → Nat → Nat → ℚ)
    (p : Nat) : ℚ :=
  ∑ s ∈ Finset.range S, freqs s *
    ∑ c ∈ Finset.range C, weights c *
      (parent c p s * ∑ j ∈ Finset.range S, m c s j * child c p j)

/-- Modelled from the spec: the calculateEdgeLogLikelihoods entry point
(spec 4.8) for one edge: validate the handle, the parent and child
partials indices, the probability (and optional derivative) matrix
indices and the scaling indices at entry, then integrate along the edge
and add the accumulated scaling factors; the derivative outputs
substitute the listed first- and second-derivative matrices for the edge
matrix.  The last three components are the output arrays: site
log-likelihoods and first and second derivatives (zeros for an absent
derivative index). -/
def calculateEdgeLogLikelihoodsCall (w : World)
    (handle parentIndex childIndex probIndex : Nat)
    (d1Index d2Index : Option Nat) (freqs weights : Nat → ℚ)
    (scalingIdx : List Nat) (logf : ℚ → ℚ) :
    ReturnCode × World × (Nat → ℚ) × (Nat → ℚ) × (Nat → ℚ) :=
  match activeInstance w handle with
  | none => (.uninitializedInstanceError, w, (fun _ => 0), (fun _ => 0),
      fun _ => 0)
  | some st =>
    if parentIndex < st.sizing.partialsBufferCount &&
        childIndex < st.sizing.partialsBufferCount &&
        probIndex < st.sizing.matrixBufferCount &&
        (match d1Index with
         | none => true
         | some d => d < st.sizing.matrixBufferCount) &&
        (match d2Index with
         | none => true
         | some d => d < st.sizing.matrixBufferCount) &&
        scalingIdx.all (fun i => i < st.sizing.partialsBufferCount) then
      (.noError, w,
       (fun p =>
         logf (edgeSiteLikelihood st.sizing.stateCount
           st.sizing.categoryCount freqs weights (st.partials parentIndex)
           (st.partials childIndex) (st.matrices probIndex) p) +
         (scalingIdx.map (fun i => st.scalers i p)).sum),
       (fun p =>
         match d1Index with
         | none => 0
         | some d => edgeSiteLikelihood st.sizing.stateCount
             st.sizing.categoryCount freqs weights (st.partials parentIndex)
             (st.partials childIndex) (st.matrices d) p),
       fun p =>
         match d2Index with
         | none => 0
         | some d => edgeSiteLikelihood st.sizing.stateCount
             st.sizing.categoryCount freqs weights (st.partials parentIndex)
             (st.partials childIndex) (st.matrices d) p)
    else (.outOfRangeError, w, (fun _ => 0), (fun _ => 0), fun _ => 0)

/-- A sample instance sizing used by the concrete witnesses below. -/
def sampleSizing : Sizing := ⟨0, 2, 1, 1, 1, 1, 1, 1⟩

/-- A sample initialized instance used by the concrete witnesses below. -/
def sampleInst : InstState :=
  ⟨sampleSizing, true, fun _ _ _ _ => 1, fun _ _ => 0, fun _ _ _ => 1,
   fun _ _ _ => 1, fun _ _ => 0, fun _ _ _ _ => 1, fun _ => 1, fun _ _ => 0⟩

/-- A sample world holding the sample instance at handle 0. -/
def sampleWorld : World :=
  ⟨fun h => if h = 0 then some sampleInst else none, 1⟩

theorem activeInstance_spec (w : World) (h : Nat) (st : InstState)
    (hh : activeInstance w h = some st) :
    w.instances h = some st ∧ st.isInit = true := by
  unfold activeInstance at hh
  cases heq : w.instances h with
  | none => rw [heq] at hh; exact absurd hh (by simp)
  | some st2 =>
    rw [heq] at hh
    by_cases hi : st2.isInit
    · simp only [if_pos hi, Option.some.injEq] at hh
      subst hh
      exact ⟨rfl, hi⟩
    · simp [hi] at hh

/-- C4: on the synchronous model, setPartials followed by getPartials on
the same valid buffer index of a valid instance succeeds and returns
exactly the array that was set. -/
theorem setPartials_getPartials_roundtrip (w : World) (handle bufferIndex : Nat)
    (st : InstState) (x : Nat → Nat → Nat → ℚ)
    (hact : activeInstance w handle = some st)
    (hidx : bufferIndex < st.sizing.partialsBufferCount) :
    (setPartials w handle bufferIndex x).1 = ReturnCode.noError ∧
    (getPartials (setPartials w handle bufferIndex x).2 handle bufferIndex).1
      = ReturnCode.noError ∧
    (getPartials (setPartials w handle bufferIndex x).2 handle bufferIndex).2.2
      = x := by
  obtain ⟨hmem, hinit⟩ := activeInstance_spec w handle st hact
  have hred : setPartials w handle bufferIndex x = (ReturnCode.noError,
      putInstance w handle ⟨st.sizing, st.isInit,
        fun b => if b = bufferIndex then x else st.partials b,
        st.tipStates, st.eigenU, st.eigenInv, st.eigenVal, st.matrices,
        st.rates, st.scalers⟩) := by
    unfold setPartials
    rw [hact]
    exact if_pos hidx
  rw [hred]
  refine ⟨rfl, ?_, ?_⟩ <;>
  · unfold getPartials activeInstance putInstance
    simp [hinit, hidx]

/-- C4 witness: the round trip at a concrete world, handle and index. -/
theorem setPartials_getPartials_roundtrip_witness :
    (setPartials sampleWorld 0 0 (fun _ _ _ => 7)).1 = ReturnCode.noError ∧
    (getPartials (setPartials sampleWorld 0 0 (fun _ _ _ => 7)).2 0 0).1
      = ReturnCode.noError ∧
    (getPartials (setPartials sampleWorld 0 0 (fun _ _ _ => 7)).2 0 0).2.2
      = (fun _ _ _ => 7) :=
  setPartials_getPartials_roundtrip sampleWorld 0 0 sampleInst
    (fun _ _ _ => 7) (by simp [activeInstance, sampleWorld, sampleInst])
    (by simp [sampleInst, sampleSizing])

/-- C6: the return taxonomy is closed: every return code of the model maps
to 0 or to one of the five negative codes of beagle.h, distinct codes have
distinct values, every non-success code is negative, createInstance
returns a non-negative handle or one of the five negative codes (the
general error when no resource satisfies the requirements, the
out-of-memory error when allocation fails, a fresh handle otherwise), and
every modelled entry point's code lies in the closed set. -/
theorem return_codes_closed :
    (∀ rc : ReturnCode, rc.toInt ∈ ([0, -1, -2, -3, -4, -5] : List Int)) ∧
    (∀ rc1 rc2 : ReturnCode, rc1.toInt = rc2.toInt → rc1 = rc2) ∧
    (∀ rc : ReturnCode, rc ≠ ReturnCode.noError → rc.toInt < 0) ∧
    (∀ w sz registry allowed pref req allocOk,
      0 ≤ (createInstance w sz registry allowed pref req allocOk).1 ∨
      (createInstance w sz registry allowed pref req allocOk).1
        ∈ ([-1, -2, -3, -4, -5] : List Int)) ∧
    (∀ w sz registry allowed pref req allocOk,
      createCandidates registry allowed req = [] →
      createInstance w sz registry allowed pref req allocOk
        = (ReturnCode.generalError.toInt, w)) ∧
    (∀ w sz registry allowed pref req, ∀ i,
      (createCandidates registry allowed req).argmax
        (fun i => popBits (registry.getD i 0 &&& pref)) = some i →
      createInstance w sz registry allowed pref req false
        = (ReturnCode.outOfMemoryError.toInt, w)) ∧
    (∀ w sz registry allowed pref req, ∀ i,
      (createCandidates registry allowed req).argmax
        (fun i => popBits (registry.getD i 0 &&& pref)) = some i →
      (createInstance w sz registry allowed pref req true).1
        = Int.ofNat w.nextHandle) ∧
    (∀ w handle, (initializeInstance w handle).1.toInt
      ∈ ([0, -1, -2, -3, -4, -5] : List Int)) ∧
    (∀ w handle, (finalizeInstance w handle).1.toInt
      ∈ ([0, -1, -2, -3, -4, -5] : List Int)) ∧
    (∀ w handle bufferIndex x, (setPartials w handle bufferIndex x).1.toInt
      ∈ ([0, -1, -2, -3, -4, -5] : List Int)) ∧
    (∀ w handle bufferIndex, (getPartials w handle bufferIndex).1.toInt
      ∈ ([0, -1, -2, -3, -4, -5] : List Int)) ∧
    (∀ w handle tipIndex inStates,
      (setTipStates w handle tipIndex inStates).1.toInt
      ∈ ([0, -1, -2, -3, -4, -5] : List Int)) ∧
    (∀ w handle eigenIndex inU inInv inVal,
      (setEigenDecomposition w handle eigenIndex inU inInv inVal).1.toInt
      ∈ ([0, -1, -2, -3, -4, -5] : List Int)) ∧
    (∀ w handle inRates, (setCategoryRates w handle inRates).1.toInt
      ∈ ([0, -1, -2, -3, -4, -5] : List Int)) ∧
    (∀ w handle matrixIndex inMatrix,
      (setTransitionMatrix w handle matrixIndex inMatrix).1.toInt
      ∈ ([0, -1, -2, -3, -4, -5] : List Int)) ∧
    (∀ w handle eigenIndex probIdx d1Idx d2Idx edgeLengths k expf,
      (updateTransitionMatricesCall w handle eigenIndex probIdx d1Idx d2Idx
        edgeLengths k expf).1.toInt ∈ ([0, -1, -2, -3, -4, -5] : List Int)) ∧
    (∀ w handle ops rescale sc logf,
      (updatePartialsCall w handle ops rescale sc logf).1.toInt
      ∈ ([0, -1, -2, -3, -4, -5] : List Int)) ∧
    (∀ w handle destList, (waitForPartials w handle destList).1.toInt
      ∈ ([0, -1, -2, -3, -4, -5] : List Int)) ∧
    (∀ w handle rootIndex freqs weights scalingIdx logf,
      (calculateRootLogLikelihoodsCall w handle rootIndex freqs weights
        scalingIdx logf).1.toInt ∈ ([0, -1, -2, -3, -4, -5] : List Int)) ∧
    (∀ w handle parentIndex childIndex probIndex d1Index d2Index freqs
        weights scalingIdx logf,
      (calculateEdgeLogLikelihoodsCall w handle parentIndex childIndex
        probIndex d1Index d2Index freqs weights scalingIdx logf).1.toInt
      ∈ ([0, -1, -2, -3, -4, -5] : List Int)) := by
  have hall : ∀ rc : ReturnCode,
      rc.toInt ∈ ([0, -1, -2, -3, -4, -5] : List Int) := by
    intro rc; cases rc <;> decide
  refine ⟨hall, ?_, ?_, ?_, ?_, ?_, ?_, fun _ _ => hall _, fun _ _ => hall _,
    fun _ _ _ _ => hall _, fun _ _ _ => hall _, fun _ _ _ _ => hall _,
    fun _ _ _ _ _ _ => hall _, fun _ _ _ => hall _, fun _ _ _ _ => hall _,
    fun _ _ _ _ _ _ _ _ _ => hall _, fun _ _ _ _ _ _ => hall _,
    fun _ _ _ => hall _, fun _ _ _ _ _ _ _ => hall _,
    fun _ _ _ _ _ _ _ _ _ _ _ => hall _⟩
  · intro rc1 rc2 h
    cases rc1 <;> cases rc2 <;> first | rfl | exact absurd h (by decide)
  · intro rc h
    cases rc <;> first | exact absurd rfl h | decide
  · intro w sz registry allowed pref req allocOk
    unfold createInstance
    cases hsel : (createCandidates registry allowed req).argmax
        (fun i => popBits (registry.getD i 0 &&& pref)) with
    | none =>
      right
      show ReturnCode.generalError.toInt ∈ ([-1, -2, -3, -4, -5] : List Int)
      decide
    | some i =>
      cases allocOk with
      | true => left; exact Int.ofNat_nonneg _
      | false =>
        right
        show ReturnCode.outOfMemoryError.toInt
          ∈ ([-1, -2, -3, -4, -5] : List Int)
        decide
  · intro w sz registry allowed pref req allocOk hempty
    unfold createInstance
    rw [hempty]
    rfl
  · intro w sz registry allowed pref req i hsel
    unfold createInstance
    rw [hsel]
    rfl
  · intro w sz registry allowed pref req i hsel
    unfold createInstance
    rw [hsel]
    rfl

/-- C7: on a valid instance, every modelled entry point that is handed an
out-of-range buffer index (partials, compact tip, eigen, matrix, scaling,
or an operation-list index) returns the out-of-range error and leaves the
whole world, in particular the instance state, unchanged; both the root
and the edge integration kernels are covered. -/
theorem out_of_range_rejected (w : World) (handle : Nat) (st : InstState)
    (bufferIndex tipIndex eigenIndex matrixIndex rootIndex : Nat)
    (parentIndex childIndex probIndex : Nat) (d1Index d2Index : Option Nat)
    (x : Nat → Nat → Nat → ℚ) (inStates : Nat → Nat)
    (inU inInv : Nat → Nat → ℚ) (inVal : Nat → ℚ)
    (inMatrix : Nat → Nat → Nat → ℚ) (ops : List PartialOp) (rescale : Bool)
    (sc : (Nat → Nat → ℚ) → ℚ) (logf : ℚ → ℚ) (probIdx : Nat → Nat)
    (d1Idx d2Idx : Option (Nat → Nat)) (edgeLengths : Nat → ℚ) (k : Nat)
    (expf : ℚ → ℚ) (freqs weights : Nat → ℚ)
    (scalingIdx destList : List Nat) :
    (activeInstance w handle = some st →
      ¬ bufferIndex < st.sizing.partialsBufferCount →
      setPartials w handle bufferIndex x = (ReturnCode.outOfRangeError, w)) ∧
    (activeInstance w handle = some st →
      ¬ bufferIndex < st.sizing.partialsBufferCount →
      getPartials w handle bufferIndex
        = (ReturnCode.outOfRangeError, w, fun _ _ _ => 0)) ∧
    (activeInstance w handle = some st →
      ¬ tipIndex < st.sizing.compactBufferCount →
      setTipStates w handle tipIndex inStates
        = (ReturnCode.outOfRangeError, w)) ∧
    (activeInstance w handle = some st →
      ¬ eigenIndex < st.sizing.eigenBufferCount →
      setEigenDecomposition w handle eigenIndex inU inInv inVal
        = (ReturnCode.outOfRangeError, w)) ∧
    (activeInstance w handle = some st →
      ¬ matrixIndex < st.sizing.matrixBufferCount →
      setTransitionMatrix w handle matrixIndex inMatrix
        = (ReturnCode.outOfRangeError, w)) ∧
    (activeInstance w handle = some st →
      ops.all (opInRange st.sizing) = false →
      updatePartialsCall w handle ops rescale sc logf
        = (ReturnCode.outOfRangeError, w)) ∧
    (activeInstance w handle = some st →
      (eigenIndex < st.sizing.eigenBufferCount &&
        (List.range k).all (fun i =>
          probIdx i < st.sizing.matrixBufferCount &&
          (match d1Idx with
           | none => true
           | some f => f i < st.sizing.matrixBufferCount) &&
          (match d2Idx with
           | none => true
           | some f => f i < st.sizing.matrixBufferCount))) = false →
      updateTransitionMatricesCall w handle eigenIndex probIdx d1Idx d2Idx
        edgeLengths k expf = (ReturnCode.outOfRangeError, w)) ∧
    (activeInstance w handle = some st →
      (rootIndex < st.sizing.partialsBufferCount &&
        scalingIdx.all (fun i => i < st.sizing.partialsBufferCount)) = false →
      calculateRootLogLikelihoodsCall w handle rootIndex freqs weights
        scalingIdx logf = (ReturnCode.outOfRangeError, w, fun _ => 0)) ∧
    (activeInstance w handle = some st →
      (parentIndex < st.sizing.partialsBufferCount &&
        childIndex < st.sizing.partialsBufferCount &&
        probIndex < st.sizing.matrixBufferCount &&
        (match d1Index with
         | none => true
         | some d => d < st.sizing.matrixBufferCount) &&
        (match d2Index with
         | none => true
         | some d => d < st.sizing.matrixBufferCount) &&
        scalingIdx.all (fun i => i < st.sizing.partialsBufferCount))
        = false →
      calculateEdgeLogLikelihoodsCall w handle parentIndex childIndex
        probIndex d1Index d2Index freqs weights scalingIdx logf
        = (ReturnCode.outOfRangeError, w, (fun _ => 0), (fun _ => 0),
           fun _ => 0)) ∧
    (activeInstance w handle = some st →
      destList.all (fun d => d < st.sizing.partialsBufferCount) = false →
      waitForPartials w handle destList = (ReturnCode.outOfRangeError, w)) := by
  refine ⟨?_, ?_, ?_, ?_, ?_, ?_, ?_, ?_, ?_, ?_⟩ <;> intro hact hcond
  · unfold setPartials; rw [hact]; exact if_neg hcond
  · unfold getPartials; rw [hact]; exact if_neg hcond
  · unfold setTipStates; rw [hact]; exact if_neg hcond
  · unfold setEigenDecomposition; rw [hact]; exact if_neg hcond
  · unfold setTransitionMatrix; rw [hact]; exact if_neg hcond
  · unfold updatePartialsCall; rw [hact]; simp [hcond]
  · unfold updateTransitionMatricesCall; rw [hact]; simp [hcond]
  · unfold calculateRootLogLikelihoodsCall; rw [hact]; simp [hcond]
  · unfold calculateEdgeLogLikelihoodsCall; rw [hact]; simp [hcond]
  · unfold waitForPartials; rw [hact]; simp [hcond]

/-- C8: a handle that does not denote a created and initialized instance
(never created, not yet initialized, or finalized) makes every modelled
kernel and buffer call — setters, getters, updateTransitionMatrices,
updatePartials, waitForPartials and both integration kernels — fail with
the uninitialized-instance error and perform no computation: the world is
returned unchanged and outputs are untouched zeros.  A created but
uninitialized instance, and a finalized one, are exactly such handles. -/
theorem uninitialized_rejected (w : World) (handle : Nat) (st : InstState)
    (bufferIndex tipIndex eigenIndex matrixIndex rootIndex : Nat)
    (parentIndex childIndex probIndex : Nat) (d1Index d2Index : Option Nat)
    (x : Nat → Nat → Nat → ℚ) (inStates : Nat → Nat)
    (inU inInv : Nat → Nat → ℚ) (inVal inRates : Nat → ℚ)
    (inMatrix : Nat → Nat → Nat → ℚ) (ops : List PartialOp) (rescale : Bool)
    (sc : (Nat → Nat → ℚ) → ℚ) (logf : ℚ → ℚ) (probIdx : Nat → Nat)
    (d1Idx d2Idx : Option (Nat → Nat)) (edgeLengths : Nat → ℚ) (k : Nat)
    (expf : ℚ → ℚ) (freqs weights : Nat → ℚ)
    (scalingIdx destList : List Nat) :
    (w.instances handle = some st → st.isInit = false →
      activeInstance w handle = none) ∧
    (w.instances handle = some st →
      activeInstance (finalizeInstance w handle).2 handle = none) ∧
    (activeInstance w handle = none →
      setPartials w handle bufferIndex x
        = (ReturnCode.uninitializedInstanceError, w) ∧
      getPartials w handle bufferIndex
        = (ReturnCode.uninitializedInstanceError, w, fun _ _ _ => 0) ∧
      setTipStates w handle tipIndex inStates
        = (ReturnCode.uninitializedInstanceError, w) ∧
      setEigenDecomposition w handle eigenIndex inU inInv inVal
        = (ReturnCode.uninitializedInstanceError, w) ∧
      setCategoryRates w handle inRates
        = (ReturnCode.uninitializedInstanceError, w) ∧
      setTransitionMatrix w handle matrixIndex inMatrix
        = (ReturnCode.uninitializedInstanceError, w) ∧
      updatePartialsCall w handle ops rescale sc logf
        = (ReturnCode.uninitializedInstanceError, w) ∧
      updateTransitionMatricesCall w handle eigenIndex probIdx d1Idx d2Idx
        edgeLengths k expf = (ReturnCode.uninitializedInstanceError, w) ∧
      waitForPartials w handle destList
        = (ReturnCode.uninitializedInstanceError, w) ∧
      calculateRootLogLikelihoodsCall w handle rootIndex freqs weights
        scalingIdx logf
        = (ReturnCode.uninitializedInstanceError, w, fun _ => 0) ∧
      calculateEdgeLogLikelihoodsCall w handle parentIndex childIndex
        probIndex d1Index d2Index freqs weights scalingIdx logf
        = (ReturnCode.uninitializedInstanceError, w, (fun _ => 0),
           (fun _ => 0), fun _ => 0)) := by
  refine ⟨?_, ?_, ?_⟩
  · intro hmem hninit
    unfold activeInstance
    rw [hmem]
    simp [hninit]
  · intro hmem
    unfold finalizeInstance
    rw [hmem]
    unfold activeInstance
    simp
  · intro hnone
    refine ⟨?_, ?_, ?_, ?_, ?_, ?_, ?_, ?_, ?_, ?_, ?_⟩
    · unfold setPartials; rw [hnone]
    · unfold getPartials; rw [hnone]
    · unfold setTipStates; rw [hnone]
    · unfold setEigenDecomposition; rw [hnone]
    · unfold setCategoryRates; rw [hnone]
    · unfold setTransitionMatrix; rw [hnone]
    · unfold updatePartialsCall; rw [hnone]
    · unfold updateTransitionMatricesCall; rw [hnone]
    · unfold waitForPartials; rw [hnone]
    · unfold calculateRootLogLikelihoodsCall; rw [hnone]
    · unfold calculateEdgeLogLikelihoodsCall; rw [hnone]

/-- C1: in an updatePartials run, each operation 6-tuple stores, at its
destination buffer, the product of its two children's contributions, taken
over the state reached after the preceding operations; a child at or above
tipCount contributes the sum over states j of its transition-matrix entry
times its partials entry, while a compact child (index below tipCount)
contributes the single matrix entry at its state code when that code is
non-missing and the matrix row sum for the missing sentinel. -/
theorem updatePartials_dest_formula (S tipCount : Nat)
    (tips : Nat → Nat → Nat) (mats : Nat → Nat → Nat → Nat → ℚ)
    (sc : (Nat → Nat → ℚ) → ℚ) (logf : ℚ → ℚ) (st0 : PeelState)
    (ops : List PartialOp) (i : Nat) (h : i < ops.length) (c p s : Nat) :
    (runOps S tipCount tips mats false sc logf st0
        (List.take (i+1) ops)).partials
        (ops.get ⟨i, h⟩).destinationPartials c p s
      = childContrib S tipCount
          (runOps S tipCount tips mats false sc logf st0
            (List.take i ops)).partials
          tips mats (ops.get ⟨i, h⟩).child1Partials
          (ops.get ⟨i, h⟩).child1TransitionMatrix c p s *
        childContrib S tipCount
          (runOps S tipCount tips mats false sc logf st0
            (List.take i ops)).partials
          tips mats (ops.get ⟨i, h⟩).child2Partials
          (ops.get ⟨i, h⟩).child2TransitionMatrix c p s ∧
    (∀ parts child childM, tipCount ≤ child →
      childContrib S tipCount parts tips mats child childM c p s
        = ∑ j ∈ Finset.range S, mats childM c s j * parts child c p j) ∧
    (∀ parts child childM, child < tipCount → tips child p < S →
      childContrib S tipCount parts tips mats child childM c p s
        = mats childM c s (tips child p)) ∧
    (∀ parts child childM, child < tipCount → S ≤ tips child p →
      childContrib S tipCount parts tips mats child childM c p s
        = ∑ j ∈ Finset.range S, mats childM c s j) := by
  have htake : List.take (i+1) ops
      = List.take i ops ++ [ops.get ⟨i, h⟩] := by
    rw [List.take_succ, List.getElem?_eq_getElem h]
    rfl
  refine ⟨?_, ?_, ?_, ?_⟩
  · rw [htake]
    unfold runOps
    rw [List.foldl_append]
    simp [applyOp, opRaw]
  · intro parts child childM hc
    unfold childContrib
    rw [if_neg (by omega)]
  · intro parts child childM hc hs
    unfold childContrib
    rw [if_pos hc, if_pos hs]
  · intro parts child childM hc hs
    unfold childContrib
    rw [if_pos hc, if_neg (by omega)]

theorem updateTMStep_frame (S : Nat) (expf : ℚ → ℚ) (U Uinv : Nat → Nat → ℚ)
    (lam rates : Nat → ℚ) (probIdx : Nat → Nat)
    (d1Idx d2Idx : Option (Nat → Nat)) (edgeLengths : Nat → ℚ)
    (pool : Nat → Nat → Nat → Nat → ℚ) (i b : Nat)
    (hp : b ≠ probIdx i)
    (h1 : ∀ f, d1Idx = some f → b ≠ f i)
    (h2 : ∀ f, d2Idx = some f → b ≠ f i) :
    updateTMStep S expf U Uinv lam rates probIdx d1Idx d2Idx edgeLengths
      pool i b = pool b := by
  unfold updateTMStep writeMatrix
  cases hd1 : d1Idx with
  | none =>
    cases hd2 : d2Idx with
    | none => simp [hp]
    | some g => simp [hp, h2 g hd2]
  | some f =>
    cases hd2 : d2Idx with
    | none => simp [hp, h1 f hd1]
    | some g => simp [hp, h1 f hd1, h2 g hd2]

theorem foldTM_frame (S : Nat) (expf : ℚ → ℚ) (U Uinv : Nat → Nat → ℚ)
    (lam rates : Nat → ℚ) (probIdx : Nat → Nat)
    (d1Idx d2Idx : Option (Nat → Nat)) (edgeLengths : Nat → ℚ)
    (l : List Nat) (pool : Nat → Nat → Nat → Nat → ℚ) (b : Nat)
    (hb : ∀ i ∈ l, b ≠ probIdx i ∧ (∀ f, d1Idx = some f → b ≠ f i) ∧
      (∀ f, d2Idx = some f → b ≠ f i)) :
    l.foldl (updateTMStep S expf U Uinv lam rates probIdx d1Idx d2Idx
      edgeLengths) pool b = pool b := by
  revert hb
  induction l generalizing pool with
  | nil => intro hb; rfl
  | cons a tl ih =>
    intro hb
    rw [List.foldl_cons,
      ih _ (fun i hi => hb i (List.mem_cons_of_mem a hi))]
    obtain ⟨hp, h1, h2⟩ := hb a (List.mem_cons_self a tl)
    exact updateTMStep_frame S expf U Uinv lam rates probIdx d1Idx d2Idx
      edgeLengths pool a b hp h1 h2

theorem updateTMStep_at_prob (S : Nat) (expf : ℚ → ℚ) (U Uinv : Nat → Nat → ℚ)
    (lam rates : Nat → ℚ) (probIdx : Nat → Nat)
    (d1Idx d2Idx : Option (Nat → Nat)) (edgeLengths : Nat → ℚ)
    (pool : Nat → Nat → Nat → Nat → ℚ) (i : Nat)
    (h1 : ∀ f, d1Idx = some f → f i ≠ probIdx i)
    (h2 : ∀ f, d2Idx = some f → f i ≠ probIdx i) :
    updateTMStep S expf U Uinv lam rates probIdx d1Idx d2Idx edgeLengths
      pool i (probIdx i)
      = probMatrix S expf U Uinv lam rates (edgeLengths i) := by
  unfold updateTMStep writeMatrix
  cases hd1 : d1Idx with
  | none =>
    cases hd2 : d2Idx with
    | none => simp
    | some g => simp [Ne.symm (h2 g hd2)]
  | some f =>
    cases hd2 : d2Idx with
    | none => simp [Ne.symm (h1 f hd1)]
    | some g => simp [Ne.symm (h1 f hd1), Ne.symm (h2 g hd2)]

theorem updateTMStep_at_d1 (S : Nat) (expf : ℚ → ℚ) (U Uinv : Nat → Nat → ℚ)
    (lam rates : Nat → ℚ) (probIdx : Nat → Nat)
    (d2Idx : Option (Nat → Nat)) (edgeLengths : Nat → ℚ)
    (pool : Nat → Nat → Nat → Nat → ℚ) (i : Nat) (f : Nat → Nat)
    (h2 : ∀ g, d2Idx = some g → g i ≠ f i) :
    updateTMStep S expf U Uinv lam rates probIdx (some f) d2Idx edgeLengths
      pool i (f i)
      = derivMatrix S expf U Uinv lam rates 1 (edgeLengths i) := by
  unfold updateTMStep writeMatrix
  cases hd2 : d2Idx with
  | none => simp
  | some g => simp [Ne.symm (h2 g hd2)]

theorem updateTMStep_at_d2 (S : Nat) (expf : ℚ → ℚ) (U Uinv : Nat → Nat → ℚ)
    (lam rates : Nat → ℚ) (probIdx : Nat → Nat)
    (d1Idx : Option (Nat → Nat)) (edgeLengths : Nat → ℚ)
    (pool : Nat → Nat → Nat → Nat → ℚ) (i : Nat) (g : Nat → Nat) :
    updateTMStep S expf U Uinv lam rates probIdx d1Idx (some g) edgeLengths
      pool i (g i)
      = derivMatrix S expf U Uinv lam rates 2 (edgeLengths i) := by
  unfold updateTMStep writeMatrix
  cases d1Idx <;> simp

theorem runUpdateTM_split (S : Nat) (expf : ℚ → ℚ) (U Uinv : Nat → Nat → ℚ)
    (lam rates : Nat → ℚ) (probIdx : Nat → Nat)
    (d1Idx d2Idx : Option (Nat → Nat)) (edgeLengths : Nat → ℚ)
    (i k : Nat) (hik : i < k) (pool : Nat → Nat → Nat → Nat → ℚ) :
    runUpdateTM S expf U Uinv lam rates probIdx d1Idx d2Idx edgeLengths k pool
      = ((List.range (k - (i+1))).map ((i+1) + ·)).foldl
          (updateTMStep S expf U Uinv lam rates probIdx d1Idx d2Idx
            edgeLengths)
          (updateTMStep S expf U Uinv lam rates probIdx d1Idx d2Idx
            edgeLengths
            (runUpdateTM S expf U Uinv lam rates probIdx d1Idx d2Idx
              edgeLengths i pool) i) := by
  unfold runUpdateTM
  conv_lhs => rw [show k = (i+1) + (k - (i+1)) by omega]
  rw [List.range_add, List.foldl_append, List.range_succ, List.foldl_append]
  rfl

theorem runUpdateTM_prob_value (S : Nat) (expf : ℚ → ℚ)
    (U Uinv : Nat → Nat → ℚ) (lam rates : Nat → ℚ) (probIdx : Nat → Nat)
    (d1Idx d2Idx : Option (Nat → Nat)) (edgeLengths : Nat → ℚ)
    (i k : Nat) (pool : Nat → Nat → Nat → Nat → ℚ) (hik : i < k)
    (hnp : ∀ j, j < k → j ≠ i → probIdx j ≠ probIdx i)
    (hd1 : ∀ f, d1Idx = some f → ∀ j, j < k → f j ≠ probIdx i)
    (hd2 : ∀ f, d2Idx = some f → ∀ j, j < k → f j ≠ probIdx i) :
    runUpdateTM S expf U Uinv lam rates probIdx d1Idx d2Idx edgeLengths k
      pool (probIdx i)
      = probMatrix S expf U Uinv lam rates (edgeLengths i) := by
  rw [runUpdateTM_split S expf U Uinv lam rates probIdx d1Idx d2Idx
    edgeLengths i k hik pool]
  rw [foldTM_frame S expf U Uinv lam rates probIdx d1Idx d2Idx edgeLengths
    _ _ (probIdx i) ?hb]
  case hb =>
    intro j hj
    obtain ⟨m, hm, rfl⟩ := List.mem_map.mp hj
    have hmk : m < k - (i+1) := List.mem_range.mp hm
    refine ⟨Ne.symm (hnp (i+1+m) (by omega) (by omega)), ?_, ?_⟩
    · intro f hf
      exact Ne.symm (hd1 f hf (i+1+m) (by omega))
    · intro f hf
      exact Ne.symm (hd2 f hf (i+1+m) (by omega))
  exact updateTMStep_at_prob S expf U Uinv lam rates probIdx d1Idx d2Idx
    edgeLengths _ i (fun f hf => hd1 f hf i hik) (fun f hf => hd2 f hf i hik)

theorem runUpdateTM_d1_value (S : Nat) (expf : ℚ → ℚ)
    (U Uinv : Nat → Nat → ℚ) (lam rates : Nat → ℚ) (probIdx : Nat → Nat)
    (d2Idx : Option (Nat → Nat)) (edgeLengths : Nat → ℚ) (f : Nat → Nat)
    (i k : Nat) (pool : Nat → Nat → Nat → Nat → ℚ) (hik : i < k)
    (hnp : ∀ j, j < k → j ≠ i → probIdx j ≠ f i)
    (hself : ∀ j, j < k → j ≠ i → f j ≠ f i)
    (hd2 : ∀ g, d2Idx = some g → ∀ j, j < k → g j ≠ f i) :
    runUpdateTM S expf U Uinv lam rates probIdx (some f) d2Idx edgeLengths k
      pool (f i)
      = derivMatrix S expf U Uinv lam rates 1 (edgeLengths i) := by
  rw [runUpdateTM_split S expf U Uinv lam rates probIdx (some f) d2Idx
    edgeLengths i k hik pool]
  rw [foldTM_frame S expf U Uinv lam rates probIdx (some f) d2Idx edgeLengths
    _ _ (f i) ?hb]
  case hb =>
    intro j hj
    obtain ⟨m, hm, rfl⟩ := List.mem_map.mp hj
    have hmk : m < k - (i+1) := List.mem_range.mp hm
    refine ⟨Ne.symm (hnp (i+1+m) (by omega) (by omega)), ?_, ?_⟩
    · intro f2 hf2
      rw [Option.some.injEq] at hf2
      subst hf2
      exact Ne.symm (hself (i+1+m) (by omega) (by omega))
    · intro g hg
      exact Ne.symm (hd2 g hg (i+1+m) (by omega))
  exact updateTMStep_at_d1 S expf U Uinv lam rates probIdx d2Idx
    edgeLengths _ i f (fun g hg => hd2 g hg i hik)

theorem runUpdateTM_d2_value (S : Nat) (expf : ℚ → ℚ)
    (U Uinv : Nat → Nat → ℚ) (lam rates : Nat → ℚ) (probIdx : Nat → Nat)
    (d1Idx : Option (Nat → Nat)) (edgeLengths : Nat → ℚ) (g : Nat → Nat)
    (i k : Nat) (pool : Nat → Nat → Nat → Nat → ℚ) (hik : i < k)
    (hnp : ∀ j, j < k → j ≠ i → probIdx j ≠ g i)
    (hd1 : ∀ f, d1Idx = some f → ∀ j, j < k → j ≠ i → f j ≠ g i)
    (hself : ∀ j, j < k → j ≠ i → g j ≠ g i) :
    runUpdateTM S expf U Uinv lam rates probIdx d1Idx (some g) edgeLengths k
      pool (g i)
      = derivMatrix S expf U Uinv lam rates 2 (edgeLengths i) := by
  rw [runUpdateTM_split S expf U Uinv lam rates probIdx d1Idx (some g)
    edgeLengths i k hik pool]
  rw [foldTM_frame S expf U Uinv lam rates probIdx d1Idx (some g) edgeLengths
    _ _ (g i) ?hb]
  case hb =>
    intro j hj
    obtain ⟨m, hm, rfl⟩ := List.mem_map.mp hj
    have hmk : m < k - (i+1) := List.mem_range.mp hm
    refine ⟨Ne.symm (hnp (i+1+m) (by omega) (by omega)), ?_, ?_⟩
    · intro f hf
      exact Ne.symm (hd1 f hf (i+1+m) (by omega) (by omega))
    · intro g2 hg2
      rw [Option.some.injEq] at hg2
      subst hg2
      exact Ne.symm (hself (i+1+m) (by omega) (by omega))
  exact updateTMStep_at_d2 S expf U Uinv lam rates probIdx d1Idx
    edgeLengths _ i g

/-- C2: in an updateTransitionMatrices run over k edges, (a) the matrix
stored at buffer probIdx i equals U diag(expf (lambda * edgeLengths i *
rates c)) Uinv for every category slot c, provided no later write targets
that buffer; (b) when the first-derivative (resp. second-derivative) index
list is absent, the run writes nothing outside the probability (resp.
probability and other derivative) targets, so no derivative buffer is
computed or modified; (c) when the first-derivative list is present its
i-th entry receives U diag(lambda * rates c * expf (...)) Uinv, and (d)
the second-derivative entry receives the second-derivative matrix. -/
theorem updateTransitionMatrices_formulas (S : Nat) (expf : ℚ → ℚ)
    (U Uinv : Nat → Nat → ℚ) (lam rates : Nat → ℚ) (probIdx : Nat → Nat)
    (d1Idx d2Idx : Option (Nat → Nat)) (edgeLengths : Nat → ℚ)
    (i k : Nat) (pool : Nat → Nat → Nat → Nat → ℚ) (hik : i < k)
    (hnp : ∀ j, j < k → j ≠ i → probIdx j ≠ probIdx i)
    (hd1p : ∀ f, d1Idx = some f → ∀ j, j < k → f j ≠ probIdx i)
    (hd2p : ∀ f, d2Idx = some f → ∀ j, j < k → f j ≠ probIdx i) :
    (runUpdateTM S expf U Uinv lam rates probIdx d1Idx d2Idx edgeLengths k
        pool (probIdx i)
      = probMatrix S expf U Uinv lam rates (edgeLengths i)) ∧
    (d1Idx = none → ∀ b, (∀ j, j < k → b ≠ probIdx j) →
      (∀ g, d2Idx = some g → ∀ j, j < k → b ≠ g j) →
      runUpdateTM S expf U Uinv lam rates probIdx d1Idx d2Idx edgeLengths k
        pool b = pool b) ∧
    (d2Idx = none → ∀ b, (∀ j, j < k → b ≠ probIdx j) →
      (∀ f, d1Idx = some f → ∀ j, j < k → b ≠ f j) →
      runUpdateTM S expf U Uinv lam rates probIdx d1Idx d2Idx edgeLengths k
        pool b = pool b) ∧
    (∀ f, d1Idx = some f →
      (∀ j, j < k → j ≠ i → probIdx j ≠ f i) →
      (∀ j, j < k → j ≠ i → f j ≠ f i) →
      (∀ g, d2Idx = some g → ∀ j, j < k → g j ≠ f i) →
      runUpdateTM S expf U Uinv lam rates probIdx d1Idx d2Idx edgeLengths k
        pool (f i)
        = derivMatrix S expf U Uinv lam rates 1 (edgeLengths i)) ∧
    (∀ g, d2Idx = some g →
      (∀ j, j < k → j ≠ i → probIdx j ≠ g i) →
      (∀ f, d1Idx = some f → ∀ j, j < k → j ≠ i → f j ≠ g i) →
      (∀ j, j < k → j ≠ i → g j ≠ g i) →
      runUpdateTM S expf U Uinv lam rates probIdx d1Idx d2Idx edgeLengths k
        pool (g i)
        = derivMatrix S expf U Uinv lam rates 2 (edgeLengths i)) := by
  refine ⟨?_, ?_, ?_, ?_, ?_⟩
  · exact runUpdateTM_prob_value S expf U Uinv lam rates probIdx d1Idx d2Idx
      edgeLengths i k pool hik hnp hd1p hd2p
  · intro hnone b hb hg
    subst hnone
    unfold runUpdateTM
    refine foldTM_frame S expf U Uinv lam rates probIdx none d2Idx
      edgeLengths _ pool b ?_
    intro j hj
    have hjk : j < k := List.mem_range.mp hj
    refine ⟨hb j hjk, fun f hf => ?_, fun g2 hg2 => hg g2 hg2 j hjk⟩
    cases hf
  · intro hnone b hb hf
    subst hnone
    unfold runUpdateTM
    refine foldTM_frame S expf U Uinv lam rates probIdx d1Idx none
      edgeLengths _ pool b ?_
    intro j hj
    have hjk : j < k := List.mem_range.mp hj
    refine ⟨hb j hjk, fun f2 hf2 => hf f2 hf2 j hjk, fun g hg => ?_⟩
    cases hg
  · intro f hf hnpf hselff hd2f
    subst hf
    exact runUpdateTM_d1_value S expf U Uinv lam rates probIdx d2Idx
      edgeLengths f i k pool hik hnpf hselff hd2f
  · intro g hg hnpg hd1g hselfg
    subst hg
    exact runUpdateTM_d2_value S expf U Uinv lam rates probIdx d1Idx
      edgeLengths g i k pool hik hnpg hd1g hselfg

/-- C2 witness: the stored probability matrix at a concrete one-edge call
with no derivative lists. -/
theorem updateTransitionMatrices_formulas_witness :
    runUpdateTM 1 (fun _ => 1) (fun _ _ => 1) (fun _ _ => 1) (fun _ => 0)
        (fun _ => 1) (fun j => j) none none (fun _ => 0) 1
        (fun _ _ _ _ => 0) 0
      = probMatrix 1 (fun _ => 1) (fun _ _ => 1) (fun _ _ => 1) (fun _ => 0)
        (fun _ => 1) 0 :=
  (updateTransitionMatrices_formulas 1 (fun _ => 1) (fun _ _ => 1)
    (fun _ _ => 1) (fun _ => 0) (fun _ => 1) (fun j => j) none none
    (fun _ => 0) 0 1 (fun _ _ _ _ => 0) (by decide)
    (fun j hj hne => absurd hj (by omega))
    (fun f hf => nomatch hf) (fun f hf => nomatch hf)).1

/-- C3: when the eigen buffer holds a two-sided inverse pair (U, Uinv) and
the edge length is zero, the transition matrix stored at buffer probIdx i
is the S-by-S identity in every rate category. -/
theorem updateTransitionMatrices_zero_identity (S : Nat) (expf : ℚ → ℚ)
    (U Uinv : Nat → Nat → ℚ) (lam rates : Nat → ℚ) (probIdx : Nat → Nat)
    (d1Idx d2Idx : Option (Nat → Nat)) (edgeLengths : Nat → ℚ)
    (i k : Nat) (pool : Nat → Nat → Nat → Nat → ℚ) (c s s2 : Nat)
    (hik : i < k)
    (hnp : ∀ j, j < k → j ≠ i → probIdx j ≠ probIdx i)
    (hd1p : ∀ f, d1Idx = some f → ∀ j, j < k → f j ≠ probIdx i)
    (hd2p : ∀ f, d2Idx = some f → ∀ j, j < k → f j ≠ probIdx i)
    (hexp : expf 0 = 1)
    (hUV : ∀ a, a < S → ∀ b, b < S →
      (∑ j ∈ Finset.range S, U a j * Uinv j b) = if a = b then 1 else 0)
    (hVU : ∀ a, a < S → ∀ b, b < S →
      (∑ j ∈ Finset.range S, Uinv a j * U j b) = if a = b then 1 else 0)
    (ht : edgeLengths i = 0) (hs : s < S) (hs2 : s2 < S) :
    runUpdateTM S expf U Uinv lam rates probIdx d1Idx d2Idx edgeLengths k
      pool (probIdx i) c s s2 = if s = s2 then 1 else 0 := by
  rw [runUpdateTM_prob_value S expf U Uinv lam rates probIdx d1Idx d2Idx
    edgeLengths i k pool hik hnp hd1p hd2p]
  unfold probMatrix matMulDiag
  rw [ht]
  simp only [mul_zero, zero_mul, hexp, mul_one]
  exact hUV s hs s2 hs2

/-- C3 witness: the zero-branch identity at a concrete one-state call. -/
theorem updateTransitionMatrices_zero_identity_witness :
    runUpdateTM 1 (fun _ => 1) (fun _ _ => 1) (fun _ _ => 1) (fun _ => 0)
        (fun _ => 1) (fun j => j) none none (fun _ => 0) 1
        (fun _ _ _ _ => 0) 0 0 0 0 = if 0 = 0 then 1 else 0 :=
  updateTransitionMatrices_zero_identity 1 (fun _ => 1) (fun _ _ => 1)
    (fun _ _ => 1) (fun _ => 0) (fun _ => 1) (fun j => j) none none
    (fun _ => 0) 0 1 (fun _ _ _ _ => 0) 0 0 0 (by decide)
    (fun j hj hne => absurd hj (by omega))
    (fun f hf => nomatch hf) (fun f hf => nomatch hf) rfl
    (by intro a ha b hb
        have ha0 : a = 0 := by omega
        have hb0 : b = 0 := by omega
        subst ha0
        subst hb0
        simp)
    (by intro a ha b hb
        have ha0 : a = 0 := by omega
        have hb0 : b = 0 := by omega
        subst ha0
        subst hb0
        simp)
    rfl (by decide) (by decide)

/-- C1 witness: the destination formula at a concrete one-operation list. -/
theorem updatePartials_dest_formula_witness :
    (runOps 1 0 (fun _ _ => 0) (fun _ _ _ _ => 1) false (fun _ => 1)
        (fun _ => 0) ⟨fun _ _ _ _ => 1, fun _ _ => 0⟩
        (List.take 1 [(⟨1, 1, 0, 0, 0, 0⟩ : PartialOp)])).partials 1 0 0 0
      = childContrib 1 0
          (runOps 1 0 (fun _ _ => 0) (fun _ _ _ _ => 1) false (fun _ => 1)
            (fun _ => 0) ⟨fun _ _ _ _ => 1, fun _ _ => 0⟩
            (List.take 0 [(⟨1, 1, 0, 0, 0, 0⟩ : PartialOp)])).partials
          (fun _ _ => 0) (fun _ _ _ _ => 1) 0 0 0 0 0 *
        childContrib 1 0
          (runOps 1 0 (fun _ _ => 0) (fun _ _ _ _ => 1) false (fun _ => 1)
            (fun _ => 0) ⟨fun _ _ _ _ => 1, fun _ _ => 0⟩
            (List.take 0 [(⟨1, 1, 0, 0, 0, 0⟩ : PartialOp)])).partials
          (fun _ _ => 0) (fun _ _ _ _ => 1) 0 0 0 0 0 :=
  (updatePartials_dest_formula 1 0 (fun _ _ => 0) (fun _ _ _ _ => 1)
    (fun _ => 1) (fun _ => 0) ⟨fun _ _ _ _ => 1, fun _ _ => 0⟩
    [⟨1, 1, 0, 0, 0, 0⟩] 0 (by decide) 0 0 0).1

theorem peelScaled_node (S : Nat) (sc : (Nat → Nat → ℚ) → ℚ)
    (logf : ℚ → ℚ) (l : PeelTree) (lM : Nat → Nat → Nat → ℚ)
    (r : PeelTree) (rM : Nat → Nat → Nat → ℚ) :
    peelScaled S sc logf (.node l lM r rM)
      = (fun c p s =>
           nodeCombine S lM rM (peelScaled S sc logf l).1
             (peelScaled S sc logf r).1 c p s /
             sc (fun c2 s2 =>
               nodeCombine S lM rM (peelScaled S sc logf l).1
                 (peelScaled S sc logf r).1 c2 p s2),
         fun p => (peelScaled S sc logf l).2 p + (peelScaled S sc logf r).2 p
           + logf (sc (fun c2 s2 =>
               nodeCombine S lM rM (peelScaled S sc logf l).1
                 (peelScaled S sc logf r).1 c2 p s2))) := rfl

theorem peel_scaling_relation (S : Nat) (sc : (Nat → Nat → ℚ) → ℚ)
    (logf : ℚ → ℚ) (hsc : ∀ f, sc f ≠ 0)
    (hlog : ∀ x y : ℚ, x ≠ 0 → y ≠ 0 → logf (x * y) = logf x + logf y)
    (t : PeelTree) (p : Nat) :
    ∃ K : ℚ, K ≠ 0 ∧ logf K = (peelScaled S sc logf t).2 p ∧
      ∀ c s, peelNoScale S t c p s = (peelScaled S sc logf t).1 c p s * K := by
  have hlog1 : logf 1 = 0 := by
    have h := hlog 1 1 one_ne_zero one_ne_zero
    rw [mul_one] at h
    linarith
  induction t with
  | leaf v =>
    refine ⟨1, one_ne_zero, ?_, ?_⟩
    · simpa [peelScaled] using hlog1
    · intro c s
      simp [peelScaled, peelNoScale]
  | node l lM r rM ihl ihr =>
    obtain ⟨Kl, hKl0, hKllog, hKl⟩ := ihl
    obtain ⟨Kr, hKr0, hKrlog, hKr⟩ := ihr
    refine ⟨Kl * Kr * sc (fun c2 s2 =>
        nodeCombine S lM rM (peelScaled S sc logf l).1
          (peelScaled S sc logf r).1 c2 p s2),
      mul_ne_zero (mul_ne_zero hKl0 hKr0) (hsc _), ?_, ?_⟩
    · rw [hlog _ _ (mul_ne_zero hKl0 hKr0) (hsc _), hlog _ _ hKl0 hKr0,
        hKllog, hKrlog, peelScaled_node]
    · intro c s
      have hσ := hsc (fun c2 s2 =>
        nodeCombine S lM rM (peelScaled S sc logf l).1
          (peelScaled S sc logf r).1 c2 p s2)
      have hL : (∑ j ∈ Finset.range S, lM c s j * peelNoScale S l c p j)
          = (∑ j ∈ Finset.range S,
              lM c s j * (peelScaled S sc logf l).1 c p j) * Kl := by
        rw [Finset.sum_mul]
        exact Finset.sum_congr rfl fun j hj => by rw [hKl c j]; ring
      have hR : (∑ j ∈ Finset.range S, rM c s j * peelNoScale S r c p j)
          = (∑ j ∈ Finset.range S,
              rM c s j * (peelScaled S sc logf r).1 c p j) * Kr := by
        rw [Finset.sum_mul]
        exact Finset.sum_congr rfl fun j hj => by rw [hKr c j]; ring
      have hNS : peelNoScale S (.node l lM r rM) c p s
          = (∑ j ∈ Finset.range S, lM c s j * peelNoScale S l c p j) *
            (∑ j ∈ Finset.range S, rM c s j * peelNoScale S r c p j) := rfl
      have hN : nodeCombine S lM rM (peelScaled S sc logf l).1
          (peelScaled S sc logf r).1 c p s
          = (∑ j ∈ Finset.range S,
              lM c s j * (peelScaled S sc logf l).1 c p j) *
            (∑ j ∈ Finset.range S,
              rM c s j * (peelScaled S sc logf r).1 c p j) := rfl
      simp only [peelScaled_node]
      rw [hNS, hL, hR, hN]
      field_simp
      ring

/-- C5: running the peeling with rescale on and adding the accumulated
per-pattern scaling-factor sums back to the site log-likelihood gives
exactly (hence within any tolerance) the site log-likelihood of the run
with rescale off; moreover, on a rescale run each operation divides the
pattern's computed states by the chosen scaler and accumulates logf of the
scaler into the destScaling buffer entry, while with rescale off the
scaling pool is ignored and untouched. -/
theorem scaling_invariance (S C : Nat) (sc : (Nat → Nat → ℚ) → ℚ)
    (logf : ℚ → ℚ) (freqs weights : Nat → ℚ) (t : PeelTree) (p : Nat)
    (hsc : ∀ f, sc f ≠ 0)
    (hlog : ∀ x y : ℚ, x ≠ 0 → y ≠ 0 → logf (x * y) = logf x + logf y)
    (hL : rootSiteLikelihood S C freqs weights
      (peelScaled S sc logf t).1 p ≠ 0) :
    logf (rootSiteLikelihood S C freqs weights (peelNoScale S t) p)
      = logf (rootSiteLikelihood S C freqs weights
          (peelScaled S sc logf t).1 p)
        + (peelScaled S sc logf t).2 p ∧
    (∀ S2 tipCount tips mats st (op : PartialOp) c p2 s,
      (applyOp S2 tipCount tips mats true sc logf st op).partials
          op.destinationPartials c p2 s
        = opRaw S2 tipCount tips mats st op c p2 s /
            sc (fun c2 s2 => opRaw S2 tipCount tips mats st op c2 p2 s2) ∧
      (applyOp S2 tipCount tips mats true sc logf st op).scalers
          op.destinationScalingFactors p2
        = st.scalers op.destinationScalingFactors p2 +
            logf (sc (fun c2 s2 =>
              opRaw S2 tipCount tips mats st op c2 p2 s2))) ∧
    (∀ S2 tipCount tips mats st (op : PartialOp),
      (applyOp S2 tipCount tips mats false sc logf st op).scalers
        = st.scalers) := by
  refine ⟨?_, ?_, ?_⟩
  · obtain ⟨K, hK0, hKlog, hK⟩ :=
      peel_scaling_relation S sc logf hsc hlog t p
    have hinner : ∀ s, (∑ c ∈ Finset.range C,
          weights c * peelNoScale S t c p s)
        = (∑ c ∈ Finset.range C,
            weights c * (peelScaled S sc logf t).1 c p s) * K := by
      intro s
      rw [Finset.sum_mul]
      exact Finset.sum_congr rfl fun c hc => by rw [hK c s]; ring
    have hlin : rootSiteLikelihood S C freqs weights (peelNoScale S t) p
        = rootSiteLikelihood S C freqs weights
            (peelScaled S sc logf t).1 p * K := by
      unfold rootSiteLikelihood
      rw [Finset.sum_mul]
      refine Finset.sum_congr rfl fun s hs => ?_
      rw [hinner s]
      ring
    rw [hlin, hlog _ _ hL hK0, hKlog]
  · intro S2 tipCount tips mats st op c p2 s
    constructor
    · simp [applyOp]
    · simp [applyOp]
  · intro S2 tipCount tips mats st op
    simp [applyOp]

/-- C5 witness: the invariance at a concrete one-leaf tree with the
trivial scaler and logarithm. -/
theorem scaling_invariance_witness :
    (fun _ => (0:ℚ)) (rootSiteLikelihood 1 1 (fun _ => 1) (fun _ => 1)
        (peelNoScale 1 (PeelTree.leaf fun _ _ _ => 1)) 0)
      = (fun _ => (0:ℚ)) (rootSiteLikelihood 1 1 (fun _ => 1) (fun _ => 1)
          (peelScaled 1 (fun _ => 1) (fun _ => 0)
            (PeelTree.leaf fun _ _ _ => 1)).1 0)
        + (peelScaled 1 (fun _ => 1) (fun _ => 0)
            (PeelTree.leaf fun _ _ _ => 1)).2 0 :=
  (scaling_invariance 1 1 (fun _ => 1) (fun _ => 0) (fun _ => 1)
    (fun _ => 1) (PeelTree.leaf fun _ _ _ => 1) 0
    (fun f => one_ne_zero) (fun x y hx hy => by norm_num)
    (by norm_num [rootSiteLikelihood, peelScaled])).1
